import Mathlib

/-!
Shallow embedding of `src/commands.rs` of the `nh` repository: the command
construction and execution core (`Command`, `BuildCommand`, `edit`,
`edit_with`), together with proofs of the specification claims about it.

External process execution is modelled by an abstract `World` that decides
the outcome of every spawn/wait (`join`) and capture, and every execution
function additionally returns the list of process specifications it handed
to the world, so that "no process is spawned" is a statement about that
trace being empty.
-/

set_option autoImplicit false

namespace Nh

/-- Terminal disposition of a child process, mirroring the external
`subprocess` crate's `ExitStatus` enum: `Exited(u32)`, `Signaled(u8)`,
`Other(i32)`, `Undetermined`. -/
inductive ExitStatus where
  | exited (code : Nat)
  | signaled (sig : Nat)
  | other (code : Int)
  | undetermined
deriving DecidableEq, Repr

/-- Stream redirection, mirroring the `subprocess` crate's `Redirection`.
Per that crate's documentation, `Redirection::None` performs no redirection
(the child inherits the parent's stream), `Pipe` connects the stream to a
pipe, and `Merge` redirects the stream to the destination of the other
output stream.  `nullFile` models redirecting the stream to the null device
(the crate's `NullFile` helper, i.e. `File(/dev/null)`), which discards it;
the source never uses it, but the distinction between `none` (inherited,
hence displayed) and `nullFile` (discarded) matters for the claims. -/
inductive Redirection where
  | none
  | pipe
  | merge
  | nullFile
deriving DecidableEq, Repr

/-- Specification of a single process invocation as assembled by
`Exec::cmd(prog).args(args).stdout(..).stderr(..).cwd(..)` in the source:
the program, its argument vector (not including the program itself), the
two output redirections, and an optional working directory.  The
`subprocess` crate defaults both redirections to `None` and the working
directory to the parent's. -/
structure ExecSpec where
  prog : String
  args : List String
  stdout : Redirection := .none
  stderr : Redirection := .none
  cwd : Option String := Option.none
deriving DecidableEq, Repr

/-- A process or pipeline handed to the operating system: either a single
`ExecSpec`, or two of them connected by a pipe (the first one's standard
output feeding the second one's standard input), as built by the crate's
`|` operator on `Exec` values. -/
inductive Proc where
  | single (e : ExecSpec)
  | pipe (fst snd : ExecSpec)
deriving DecidableEq, Repr

/-- Errors surfaced by the execution core, mirroring how the source builds
`color_eyre` reports: `msg` is `bail!("...")` with a string, `exitError` is
`bail!(ExitError(status))`, `spawn` is a spawn/wait-level failure coming
back from the `subprocess` crate, `context m e` is `e` annotated with `m`
by `wrap_err`, and `panic` models an aborting `panic!`/`expect` (which in
Rust is not a `Result` error at all but kills the process). -/
inductive NhError where
  | msg (s : String)
  | exitError (st : ExitStatus)
  | spawn (e : String)
  | context (m : String) (e : NhError)
  | panic (s : String)
deriving DecidableEq, Repr

/-- The ambient operating system, abstracted: `join` decides the result of
spawning a process or pipeline and waiting for it (a spawn/wait-level
failure, or the terminal exit status), and `capture` decides the result of
spawning a single process with its standard output captured (a failure, or
the captured standard-output text together with the exit status recorded in
the crate's `CaptureData`). -/
structure World where
  join : Proc → Except String ExitStatus
  capture : ExecSpec → Except String (String × ExitStatus)

/-- A world in which every spawn succeeds, every process terminates with
status `st`, and every capture yields the text `out`. -/
def constWorld (st : ExitStatus) (out : String) : World :=
  { join := fun _ => .ok st, capture := fun _ => .ok (out, st) }

/-- The `Command` struct of the source: dry-run flag, optional
human-readable message, and the argument vector whose first element is the
program.  (The builder accumulates `args` by appending; only the finished
value matters here.) -/
structure Command where
  dry : Bool
  message : Option String
  args : List String

/-- `Command::exec` from the source.  It destructures `args` into head and
tail, bailing with "Args was length 0" on an empty vector; builds the
`Exec` with both output streams unredirected; logs; and unless `dry` is
set, spawns and waits, wrapping any spawn/wait failure with the message as
context when a message is present.  The child's exit status is discarded.
The second component is the trace of processes handed to the world. -/
def Command.exec (w : World) (c : Command) : Except NhError Unit × List Proc :=
  match c.args with
  | [] => (.error (.msg "Args was length 0"), [])
  | head :: tail =>
    let cmd : ExecSpec := { prog := head, args := tail, stdout := .none, stderr := .none }
    if !c.dry then
      match w.join (.single cmd), c.message with
      | .ok _, _ => (.ok (), [.single cmd])
      | .error e, some m => (.error (.context m (.spawn e)), [.single cmd])
      | .error e, Option.none => (.error (.spawn e), [.single cmd])
    else
      (.ok (), [])

/-- `Command::exec_capture` from the source.  Same head/tail check; the
`Exec` has standard output piped (captured) and standard error
unredirected; unless `dry` is set it captures and returns `Some` of the
captured standard-output text (no context is attached to a capture
failure); in dry mode it returns `None` without spawning. -/
def Command.exec_capture (w : World) (c : Command) :
    Except NhError (Option String) × List Proc :=
  match c.args with
  | [] => (.error (.msg "Args was length 0"), [])
  | head :: tail =>
    let cmd : ExecSpec := { prog := head, args := tail, stdout := .pipe, stderr := .none }
    if !c.dry then
      match w.capture cmd with
      | .ok cap => (.ok (some cap.1), [.single cmd])
      | .error e => (.error (.spawn e), [.single cmd])
    else
      (.ok Option.none, [])

/-- The `BuildCommand` struct of the source: required message, flake
reference, extra arguments appended to the build invocation, and the `nom`
flag selecting the two-stage pipeline. -/
structure BuildCommand where
  message : String
  flakeref : String
  extra_args : List String
  nom : Bool

/-- `BuildCommand::exec` from the source.  With `nom` set it builds the
pipeline `nix build <flakeref> --log-format internal-json --verbose
<extra_args...>` (stdout piped, stderr merged into stdout) into
`nom --json`, with the pipeline's stdout unredirected; otherwise the single
process `nix build <flakeref> <extra_args...>` (stdout unredirected, stderr
merged).  It joins, wraps a spawn/wait failure with the message as context
(`exit.wrap_err(self.message.clone())?`), and then classifies the status:
`Exited(0)` is success, anything else is `bail!(ExitError(other))` — note
that this `bail!` is past the `?` and therefore not wrapped with the
message. -/
def BuildCommand.exec (w : World) (b : BuildCommand) :
    Except NhError Unit × List Proc :=
  let cmd : Proc :=
    if b.nom then
      .pipe
        { prog := "nix",
          args := ["build", b.flakeref, "--log-format", "internal-json", "--verbose"]
            ++ b.extra_args,
          stdout := .pipe, stderr := .merge }
        { prog := "nom", args := ["--json"], stdout := .none, stderr := .none }
    else
      .single
        { prog := "nix", args := ["build", b.flakeref] ++ b.extra_args,
          stdout := .none, stderr := .merge }
  match w.join cmd with
  | .error e => (.error (.context b.message (.spawn e)), [cmd])
  | .ok st =>
    if st = .exited 0 then (.ok (), [cmd])
    else (.error (.exitError st), [cmd])

/-- The reference string type.  `crate::interface::FlakeRef` is declared in
a module outside the provided source, but `edit_with` calls `.split('/')`
on it, so it is a string; the spec likewise calls it "a required string
identifier". -/
abbrev FlakeRef := String

/-- Rust's `str::split(c)` on the character list of a string: splits at
every occurrence of `c`, yielding the (possibly empty) pieces between
occurrences; on the empty string it yields one empty piece. -/
def splitOnChar (c : Char) : List Char → List (List Char)
  | [] => [[]]
  | x :: xs =>
    if x = c then
      [] :: splitOnChar c xs
    else
      match splitOnChar c xs with
      | [] => [[x]]
      | y :: ys => (x :: y) :: ys

/-- The working-directory computation inside `edit_with`, with the two
potentially-partial steps made explicit: `pieces.remove(pieces.len() - 1)`
panics when `pieces` is empty (modelled by `getLast?`), and
`.split('#').next().unwrap()` panics when the `#`-split has no first piece
(modelled by `head?`); both yield `none` here in the impossible case.
Otherwise it re-appends the stripped final piece to the remaining pieces
and rejoins with `/`. -/
def flakedirOf? (flakeref : FlakeRef) : Option String :=
  let pieces := splitOnChar '/' flakeref.data
  match pieces.getLast? with
  | Option.none => Option.none
  | some lastPiece =>
    match (splitOnChar '#' lastPiece).head? with
    | Option.none => Option.none
    | some finalPiece =>
      some (String.mk (List.intercalate ['/'] (pieces.dropLast ++ [finalPiece])))

/-- `edit_with` from the source: computes the working directory from the
reference, then spawns `<editor> .` in that directory with both output
streams unredirected and waits; a spawn/wait failure is propagated
unannotated, and the editor's exit status is discarded.  The impossible
panic of the directory computation is modelled as a `panic` error. -/
def edit_with (w : World) (flakeref : FlakeRef) (editor : String) :
    Except NhError Unit × List Proc :=
  match flakedirOf? flakeref with
  | Option.none => (.error (.panic "index out of bounds"), [])
  | some flakedir =>
    let spec : ExecSpec :=
      { prog := editor, args := ["."], stdout := .none, stderr := .none,
        cwd := some flakedir }
    match w.join (.single spec) with
    | .ok _ => (.ok (), [.single spec])
    | .error e => (.error (.spawn e), [.single spec])

/-- `edit` from the source:
`std::env::var("EDITOR").expect("EDITOR not set")` reads the environment
variable (modelled as an explicit `Option String` argument) and panics —
aborting before any process is spawned — when it is unset; otherwise it
delegates to `edit_with`. -/
def edit (w : World) (envEDITOR : Option String) (flakeref : FlakeRef) :
    Except NhError Unit × List Proc :=
  match envEDITOR with
  | Option.none => (.error (.panic "EDITOR not set"), [])
  | some editor => edit_with w flakeref editor

/-! ### Helper lemmas -/

/-- Splitting a character list never yields the empty list of pieces, just
as Rust's `str::split` iterator always yields at least one piece. -/
theorem splitOnChar_ne_nil (c : Char) (l : List Char) : splitOnChar c l ≠ [] := by
  induction l with
  | nil => simp [splitOnChar]
  | cons x xs ih =>
    simp only [splitOnChar]
    by_cases hx : x = c
    · simp [hx]
    · rw [if_neg hx]
      cases hs : splitOnChar c xs <;> simp

/-- Splitting on a character that does not occur yields the whole list as
the single piece. -/
theorem splitOnChar_not_mem {c : Char} {l : List Char} (h : c ∉ l) :
    splitOnChar c l = [l] := by
  induction l with
  | nil => rfl
  | cons x xs ih =>
    rw [List.mem_cons, not_or] at h
    have hx : ¬ x = c := fun hxc => h.1 hxc.symm
    rw [splitOnChar, if_neg hx, ih h.2]

/-- The working-directory computation never hits either of its two panic
points: both the `/`-split and the `#`-split are non-empty, so it always
produces a directory. -/
theorem flakedirOf?_isSome (s : String) : ∃ d, flakedirOf? s = some d := by
  rcases hp : (splitOnChar '/' s.data).getLast? with _ | last
  · exact absurd (List.getLast?_eq_none_iff.mp hp) (splitOnChar_ne_nil _ _)
  · rcases hh : (splitOnChar '#' last).head? with _ | fp
    · exact absurd (List.head?_eq_none_iff.mp hh) (splitOnChar_ne_nil _ _)
    · refine ⟨String.mk (List.intercalate ['/']
        ((splitOnChar '/' s.data).dropLast ++ [fp])), ?_⟩
      simp only [flakedirOf?, hp, hh]

/-- On a reference containing neither `/` nor `#`, the working directory is
the whole reference. -/
theorem flakedirOf?_no_sep {s : String} (h1 : '/' ∉ s.data) (h2 : '#' ∉ s.data) :
    flakedirOf? s = some s := by
  have hmk : String.mk s.data = s := rfl
  simp [flakedirOf?, splitOnChar_not_mem h1, splitOnChar_not_mem h2,
    List.intercalate, hmk]

/-! ### Claim theorems -/

/-- Claim C3: for every `Command` whose `args` sequence is empty, both
`exec` and `exec_capture` fail with the "Args was length 0" error
regardless of the `dry` flag and of the world, and the spawn trace is
empty: no process is spawned and the `dry` flag is never consulted. -/
theorem command_empty_args_error (w : World) (c : Command) (h : c.args = []) :
    Command.exec w c = (.error (.msg "Args was length 0"), []) ∧
    Command.exec_capture w c = (.error (.msg "Args was length 0"), []) := by
  constructor <;> simp [Command.exec, Command.exec_capture, h]

/-- Witness for C3 at a concrete dry command with empty args. -/
theorem command_empty_args_error_witness :
    Command.exec (constWorld (.exited 0) "") ⟨true, some "m", []⟩ =
      (.error (.msg "Args was length 0"), []) ∧
    Command.exec_capture (constWorld (.exited 0) "") ⟨true, some "m", []⟩ =
      (.error (.msg "Args was length 0"), []) :=
  command_empty_args_error (constWorld (.exited 0) "") ⟨true, some "m", []⟩ rfl

/-- Claim C4: for every `Command` with non-empty args and `dry = true`,
`exec` returns success and the spawn trace is empty. -/
theorem command_dry_no_spawn (w : World) (c : Command)
    (h : c.args ≠ []) (hd : c.dry = true) :
    Command.exec w c = (.ok (), []) := by
  match hc : c.args with
  | [] => exact absurd hc h
  | x :: xs => simp [Command.exec, hc, hd]

/-- Witness for C4 at a concrete dry command. -/
theorem command_dry_no_spawn_witness :
    Command.exec (constWorld (.exited 0) "") ⟨true, Option.none, ["ls"]⟩ =
      (.ok (), []) :=
  command_dry_no_spawn (constWorld (.exited 0) "") ⟨true, Option.none, ["ls"]⟩
    (by simp) rfl

/-- Claim C5: for every `Command` with non-empty args, `exec_capture` in
dry mode returns `none` with an empty spawn trace; in non-dry mode, when
the world's capture of the spawned process yields text `s` with a zero
exit, the result is `some s` exactly; and `some ""` is distinguished from
`none`. -/
theorem exec_capture_dry_absent_capture_exact (w : World) (c : Command)
    (head : String) (tail : List String) (h : c.args = head :: tail) :
    (c.dry = true → Command.exec_capture w c = (.ok Option.none, [])) ∧
    (c.dry = false → ∀ s,
      w.capture { prog := head, args := tail, stdout := .pipe, stderr := .none } =
        .ok (s, .exited 0) →
      (Command.exec_capture w c).1 = .ok (some s)) ∧
    (Except.ok (some "") : Except NhError (Option String)) ≠ .ok Option.none := by
  refine ⟨fun hd => ?_, fun hd s hs => ?_, by simp⟩
  · simp [Command.exec_capture, h, hd]
  · simp [Command.exec_capture, h, hd, hs]

/-- Witness for C5: a dry capture yields `none`, and a non-dry capture in
a world that produces "hello" with exit 0 yields `some "hello"`. -/
theorem exec_capture_dry_absent_capture_exact_witness :
    Command.exec_capture (constWorld (.exited 0) "hello") ⟨true, Option.none, ["echo"]⟩ =
      (.ok Option.none, []) ∧
    (Command.exec_capture (constWorld (.exited 0) "hello")
        ⟨false, Option.none, ["echo"]⟩).1 = .ok (some "hello") :=
  ⟨(exec_capture_dry_absent_capture_exact (constWorld (.exited 0) "hello")
      ⟨true, Option.none, ["echo"]⟩ "echo" [] rfl).1 rfl,
   (exec_capture_dry_absent_capture_exact (constWorld (.exited 0) "hello")
      ⟨false, Option.none, ["echo"]⟩ "echo" [] rfl).2.1 rfl "hello" rfl⟩

/-- Claim C7: neither `Command.exec` (non-dry, non-empty args) nor
`edit_with` validates the child's own exit status: in any world where every
join succeeds with status `st` — for an arbitrary `st`, including non-zero
exits — both calls return success. -/
theorem child_exit_not_validated (w : World) (c : Command) (st : ExitStatus)
    (h : c.args ≠ []) (hd : c.dry = false) (hj : ∀ p, w.join p = .ok st) :
    (Command.exec w c).1 = .ok () ∧
    ∀ (fr : FlakeRef) (ed : String), (edit_with w fr ed).1 = .ok () := by
  constructor
  · match hc : c.args with
    | [] => exact absurd hc h
    | x :: xs => simp [Command.exec, hc, hd, hj]
  · intro fr ed
    obtain ⟨d, hdir⟩ := flakedirOf?_isSome fr
    simp [edit_with, hdir, hj]

/-- Witness for C7: with every child exiting with status 7, both a non-dry
`exec` and an `edit_with` succeed. -/
theorem child_exit_not_validated_witness :
    (Command.exec (constWorld (.exited 7) "") ⟨false, some "m", ["make"]⟩).1 =
      .ok () ∧
    (edit_with (constWorld (.exited 7) "") "a/b#x" "vi").1 = .ok () :=
  ⟨(child_exit_not_validated (constWorld (.exited 7) "") ⟨false, some "m", ["make"]⟩
      (.exited 7) (by simp) rfl (fun _ => rfl)).1,
   (child_exit_not_validated (constWorld (.exited 7) "") ⟨false, some "m", ["make"]⟩
      (.exited 7) (by simp) rfl (fun _ => rfl)).2 "a/b#x" "vi"⟩

/-- Claim C9: with the `EDITOR` environment variable unset, `edit` fails
immediately (the `expect` panic) with an empty spawn trace: no process is
spawned and there is no fallback. -/
theorem edit_requires_editor_env (w : World) (fr : FlakeRef) :
    edit w Option.none fr = (.error (.panic "EDITOR not set"), []) := rfl

/-- Claim C10: the working-directory computation inside `edit_with` is
total: splitting on `/` always yields at least one segment, so the removal
of the last segment and the `#`-stripping never fail, and a directory is
always produced. -/
theorem edit_with_workdir_total (s : String) :
    splitOnChar '/' s.data ≠ [] ∧
    (∀ piece : List Char, splitOnChar '#' piece ≠ []) ∧
    ∃ d, flakedirOf? s = some d :=
  ⟨splitOnChar_ne_nil '/' s.data, fun piece => splitOnChar_ne_nil '#' piece,
   flakedirOf?_isSome s⟩

/-- Claim C6: the working directory computed by `edit_with` is obtained by
splitting the reference on `/`, stripping any `#`-suffix from the last
segment, and rejoining: `"a/b/c#output"` yields `"a/b/c"`, `"x#y"` yields
`"x"`, and a reference with neither `/` nor `#` yields the whole string. -/
theorem edit_with_workdir (s : String)
    (h1 : '/' ∉ s.data) (h2 : '#' ∉ s.data) :
    flakedirOf? "a/b/c#output" = some "a/b/c" ∧
    flakedirOf? "x#y" = some "x" ∧
    flakedirOf? s = some s :=
  ⟨by decide, by decide, flakedirOf?_no_sep h1 h2⟩

/-- Witness for C6 at the concrete separator-free reference "plain". -/
theorem edit_with_workdir_witness :
    flakedirOf? "a/b/c#output" = some "a/b/c" ∧
    flakedirOf? "x#y" = some "x" ∧
    flakedirOf? "plain" = some "plain" :=
  edit_with_workdir "plain" (by decide) (by decide)

/-- Counterexample to claim C1 as stated.  The claim says a non-zero exit
status yields an `ExitError` "with the BuildCommand's message attached as
context to the error"; but in the source `wrap_err(self.message.clone())`
is applied to the join result before the `?`, so it annotates only
spawn/wait failures, while `bail!(ExitError(other))` raises the exit error
bare.  With a build whose child exits 1, the result is the bare
`ExitError`, not the message-annotated one. -/
theorem buildCommand_exitError_no_context_cex :
    (BuildCommand.exec (constWorld (.exited 1) "")
        ⟨"building", "f", [], false⟩).1 = .error (.exitError (.exited 1)) ∧
    (BuildCommand.exec (constWorld (.exited 1) "")
        ⟨"building", "f", [], false⟩).1 ≠
      .error (.context "building" (.exitError (.exited 1))) := by
  refine ⟨rfl, fun h => ?_⟩
  rw [show (BuildCommand.exec (constWorld (.exited 1) "")
      ⟨"building", "f", [], false⟩).1 = .error (.exitError (.exited 1)) from rfl] at h
  injection h with h2
  exact NhError.noConfusion h2

/-- Claim C1 (amended): `BuildCommand.exec` classifies the terminal exit
status: `Exited(0)` yields success, any other status yields an `ExitError`
carrying that raw status — without the message attached as context (the
message is attached as context only to spawn/wait-level failures). -/
theorem buildCommand_exit_classification (w : World) (b : BuildCommand)
    (st : ExitStatus) (hj : ∀ p, w.join p = .ok st) :
    (st = .exited 0 → (BuildCommand.exec w b).1 = .ok ()) ∧
    (st ≠ .exited 0 →
      (BuildCommand.exec w b).1 = .error (.exitError st) ∧
      ∀ m, (BuildCommand.exec w b).1 ≠ .error (.context m (.exitError st))) := by
  constructor
  · intro h0
    simp [BuildCommand.exec, hj, h0]
  · intro hne
    have hres : (BuildCommand.exec w b).1 = .error (.exitError st) := by
      simp [BuildCommand.exec, hj, hne]
    refine ⟨hres, fun m h => ?_⟩
    rw [hres] at h
    injection h with h2
    exact NhError.noConfusion h2

/-- Witness for the amended C1: a build whose child exits 0 succeeds, and
one whose child exits 2 yields the bare `ExitError` with that status. -/
theorem buildCommand_exit_classification_witness :
    (BuildCommand.exec (constWorld (.exited 0) "")
        ⟨"building", "f", [], true⟩).1 = .ok () ∧
    (BuildCommand.exec (constWorld (.exited 2) "")
        ⟨"building", "f", [], false⟩).1 = .error (.exitError (.exited 2)) :=
  ⟨(buildCommand_exit_classification (constWorld (.exited 0) "")
      ⟨"building", "f", [], true⟩ (.exited 0) (fun _ => rfl)).1 rfl,
   ((buildCommand_exit_classification (constWorld (.exited 2) "")
      ⟨"building", "f", [], false⟩ (.exited 2) (fun _ => rfl)).2 (by decide)).1⟩

/-- Claim C2: `BuildCommand.exec` hands exactly one process (or pipeline)
to the operating system, with exactly these argument vectors: in direct
mode the single process `nix build <flakeref> <extraArgs...>`; in pipeline
mode `nix build <flakeref> --log-format internal-json --verbose
<extraArgs...>` with stdout piped and stderr merged into it, feeding
`nom --json`. -/
theorem buildCommand_argv (w : World) (b : BuildCommand) :
    (BuildCommand.exec w b).2 =
      [if b.nom then
        Proc.pipe
          { prog := "nix",
            args := ["build", b.flakeref, "--log-format", "internal-json", "--verbose"]
              ++ b.extra_args,
            stdout := .pipe, stderr := .merge }
          { prog := "nom", args := ["--json"], stdout := .none, stderr := .none }
      else
        Proc.single
          { prog := "nix", args := ["build", b.flakeref] ++ b.extra_args,
            stdout := .none, stderr := .merge }] := by
  cases hb : b.nom <;>
    simp only [BuildCommand.exec, hb, if_true, if_false] <;>
    (rcases w.join _ with e | st
     · rfl
     · by_cases h0 : st = .exited 0 <;> simp [h0])

/-- Counterexample to claim C8 as stated.  The claim says `exec_capture`
runs the child "with its standard error discarded into a null sink (not
displayed)".  The source sets `stderr(Redirection::None)`, which in the
`subprocess` crate performs no redirection — the child inherits (and hence
displays to) the parent's standard error; a null sink would be the crate's
`NullFile` redirection, which the source does not use.  Concretely, the
spawned process carries `stderr = Redirection.none`, which is not
`Redirection.nullFile`. -/
theorem exec_capture_stderr_not_null_sink_cex :
    (Command.exec_capture (constWorld (.exited 0) "out")
        ⟨false, Option.none, ["prog"]⟩).2 =
      [.single { prog := "prog", args := [], stdout := .pipe, stderr := .none }] ∧
    Redirection.none ≠ Redirection.nullFile :=
  ⟨rfl, by decide⟩

/-- Claim C8 (amended): for every non-dry `Command` with non-empty args,
`exec_capture` runs the child with standard error left unredirected
(`Redirection::None`: inherited from the parent, so displayed there and not
captured) rather than a null sink, and with standard output redirected to a
pipe and captured into memory as text. -/
theorem exec_capture_redirections (w : World) (c : Command)
    (head : String) (tail : List String) (h : c.args = head :: tail)
    (hd : c.dry = false) :
    (Command.exec_capture w c).2 =
      [.single { prog := head, args := tail, stdout := .pipe, stderr := .none }] ∧
    ∀ s st, w.capture { prog := head, args := tail, stdout := .pipe, stderr := .none } =
        .ok (s, st) →
      (Command.exec_capture w c).1 = .ok (some s) := by
  constructor
  · rcases hc : w.capture { prog := head, args := tail, stdout := .pipe, stderr := .none }
      with e | cap <;> simp [Command.exec_capture, h, hd, hc]
  · intro s st hs
    simp [Command.exec_capture, h, hd, hs]

/-- Witness for the amended C8 at a concrete non-dry command. -/
theorem exec_capture_redirections_witness :
    (Command.exec_capture (constWorld (.exited 0) "out")
        ⟨false, Option.none, ["prog", "-a"]⟩).2 =
      [.single { prog := "prog", args := ["-a"], stdout := .pipe, stderr := .none }] ∧
    (Command.exec_capture (constWorld (.exited 0) "out")
        ⟨false, Option.none, ["prog", "-a"]⟩).1 = .ok (some "out") :=
  ⟨(exec_capture_redirections (constWorld (.exited 0) "out")
      ⟨false, Option.none, ["prog", "-a"]⟩ "prog" ["-a"] rfl rfl).1,
   (exec_capture_redirections (constWorld (.exited 0) "out")
      ⟨false, Option.none, ["prog", "-a"]⟩ "prog" ["-a"] rfl rfl).2
     "out" (.exited 0) rfl⟩

end Nh
